import Mathlib

/-!
Verification development for the issuance policy decision engine
(package `policy`: `PolicyAuthorityImpl` with `suffixMatch`, `PSLPlusOne`,
`WillingToIssue`, `ChallengesFor`).

Strings are modelled as Lean `String` (sequences of characters).  The Go
code iterates over the UTF-8 bytes of a string in exactly one place (the
DNS-character gate of `WillingToIssue`); since every byte of a multi-byte
UTF-8 character is ≥ 0x80 and hence fails `isDNSCharacter`, a string has
some failing byte iff it has some failing character, so the gate is
modelled character-wise.  All other string operations of the source
(`strings.Split` on ".", `strings.Join` with ".", `strings.ToLower`,
`len`) are reached only on strings that already passed that gate (pure
ASCII), where character-wise and byte-wise semantics coincide.
-/

/-- The identifier type tag for DNS identifiers.  Modelled from the spec:
the `core` package defining `AcmeIdentifier` is not part of the sources;
the spec describes an identifier as a tagged value `{Type, Value}` whose
only supported `Type` variant is `DNS` (in Go a string-typed tag). -/
def IdentifierDNS : String := "dns"

/-- Modelled from the spec: `core.AcmeIdentifier`, a tagged value
`{Type, Value}` (`Type` is a reserved word in Lean, hence lower case). -/
structure AcmeIdentifier where
  type : String
  value : String
deriving DecidableEq, Repr

/-- `PolicyAuthorityImpl` carries the two immutable lookup tables.  The Go
`map[string]bool` sets are modelled as lists of keys with decidable
membership. -/
structure PolicyAuthorityImpl where
  PublicSuffixList : List String
  Blacklist : List String
deriving DecidableEq, Repr

/-- `const maxLabels = 10`. -/
def maxLabels : Nat := 10

/-- `isDNSCharacter`: membership of a byte in `{a-z, A-Z, 0-9, '.', '-'}`,
stated on characters (every character of a multi-byte UTF-8 encoding
fails, exactly as each of its bytes does). -/
def isDNSCharacter (ch : Char) : Bool :=
  ('a' ≤ ch && ch ≤ 'z') ||
  ('A' ≤ ch && ch ≤ 'Z') ||
  ('0' ≤ ch && ch ≤ '9') ||
  ch == '.' || ch == '-'

/-- One character of `strings.ToLower`.  Modelled for ASCII: the 26
upper-case ASCII letters map to their lower-case forms, everything else is
left unchanged.  `strings.ToLower` agrees with this on all ASCII strings,
and the source applies it only to strings that passed the DNS-character
gate (pure ASCII). -/
def lowerChar : Char → Char
  | 'A' => 'a'
  | 'B' => 'b'
  | 'C' => 'c'
  | 'D' => 'd'
  | 'E' => 'e'
  | 'F' => 'f'
  | 'G' => 'g'
  | 'H' => 'h'
  | 'I' => 'i'
  | 'J' => 'j'
  | 'K' => 'k'
  | 'L' => 'l'
  | 'M' => 'm'
  | 'N' => 'n'
  | 'O' => 'o'
  | 'P' => 'p'
  | 'Q' => 'q'
  | 'R' => 'r'
  | 'S' => 's'
  | 'T' => 't'
  | 'U' => 'u'
  | 'V' => 'v'
  | 'W' => 'w'
  | 'X' => 'x'
  | 'Y' => 'y'
  | 'Z' => 'z'
  | c => c

/-- `strings.ToLower` (ASCII fragment, see `lowerChar`). -/
def goToLower (s : String) : String :=
  String.mk (s.data.map lowerChar)

/-- `strings.Split(s, ".")` on the character list: cut at every dot.
Like Go, splitting the empty string yields `[""]` and a leading, trailing
or doubled dot yields empty fields. -/
def splitDots : List Char → List (List Char)
  | [] => [[]]
  | '.' :: cs => [] :: splitDots cs
  | c :: cs =>
    match splitDots cs with
    | [] => [[c]]
    | l :: ls => (c :: l) :: ls

/-- `strings.Split(domain, ".")`. -/
def splitDomain (s : String) : List String :=
  (splitDots s.data).map String.mk

/-- `strings.Join(labels, ".")`. -/
def joinDots : List String → String
  | [] => ""
  | [s] => s
  | s :: ss => s ++ "." ++ joinDots ss

/-- Membership in a `map[string]bool` used as a set. -/
def inSet (s : String) : List String → Bool
  | [] => false
  | t :: ts => s == t || inSet s ts

/-- The loop of `suffixMatch`: `i` is the index of the current iteration
(the current sublist is `labels[i:]`). -/
def suffixMatchAux (suffixSet : List String) (properSuffix : Bool) :
    List String → Nat → Bool
  | [], _ => false
  | l :: ls, i =>
    if inSet (joinDots (l :: ls)) suffixSet then !properSuffix || decide (0 < i)
    else suffixMatchAux suffixSet properSuffix ls (i + 1)

/-- `suffixMatch(labels, suffixSet, properSuffix)`: scan the label-wise
suffixes `labels[i:]` for `i = 0, 1, ...`; at the first one found in the
set return `!properSuffix || i > 0`; return `false` if none is found. -/
def suffixMatch (labels : List String) (suffixSet : List String)
    (properSuffix : Bool) : Bool :=
  suffixMatchAux suffixSet properSuffix labels 0

/-- A decimal digit (byte class `0-9`). -/
def isDigitChar (c : Char) : Bool :=
  '0' ≤ c && c ≤ '9'

/-- Numeric value of a decimal digit character. -/
def digitVal (c : Char) : Nat :=
  c.toNat - 48

/-- The digit-consuming loop of `net`'s `dtoi`: accumulate decimal digits
into `n`, failing (like Go's `ok = false`) once the accumulator reaches
the cutoff `big = 0xFFFFFF`; stop at the first non-digit and return the
value and the unconsumed rest. -/
def dtoiAux : Nat → List Char → Option (Nat × List Char)
  | n, [] => some (n, [])
  | n, c :: cs =>
    if isDigitChar c then
      if 16777215 ≤ n * 10 + digitVal c then none
      else dtoiAux (n * 10 + digitVal c) cs
    else some (n, c :: cs)

/-- `net`'s `dtoi`: fails when the input does not start with a digit. -/
def dtoi : List Char → Option (Nat × List Char)
  | [] => none
  | c :: cs => if isDigitChar c then dtoiAux 0 (c :: cs) else none

/-- `net.parseIPv4`: `j` octets still to read; `first` marks the leading
octet (no '.' separator before it).  After the last octet the input must
be exhausted; each octet must be ≤ 255. -/
def parseIPv4Go : Nat → Bool → List Char → Bool
  | 0, _, rest => rest.isEmpty
  | j + 1, first, rest =>
    let afterSep : Option (List Char) :=
      if first then some rest
      else
        match rest with
        | '.' :: r => some r
        | _ => none
    match afterSep with
    | none => false
    | some r =>
      match dtoi r with
      | none => false
      | some (n, r2) => if 255 < n then false else parseIPv4Go j false r2

/-- `net.parseIPv4` on a string. -/
def parseIPv4Succeeds (s : String) : Bool :=
  parseIPv4Go 4 true s.data

/-- Modelled from the spec: `net.ParseIP` dispatches to an IPv6 parser at
the first ':'.  `isDNSCharacter` excludes ':', so after the DNS-character
gate of `WillingToIssue` this branch can never be taken; it is modelled
as a recognizer that accepts nothing, which is irrelevant to every
reachable call. -/
def parseIPv6Succeeds (_s : String) : Bool := false

/-- The dispatch loop of `net.ParseIP`: find the first '.' or ':' and
parse accordingly; with neither present the string is not an IP. -/
def parseIPLoop (full : List Char) : List Char → Bool
  | [] => false
  | c :: cs =>
    if c == '.' then parseIPv4Go 4 true full
    else if c == ':' then parseIPv6Succeeds (String.mk full)
    else parseIPLoop full cs

/-- `net.ParseIP(s) != nil`. -/
def parseIPSucceeds (s : String) : Bool :=
  parseIPLoop s.data s.data

/-- Alphanumeric ASCII character (classes `a-z`, `A-Z`, `0-9`). -/
def isAlphaNumChar (c : Char) : Bool :=
  ('a' ≤ c && c ≤ 'z') || ('A' ≤ c && c ≤ 'Z') || ('0' ≤ c && c ≤ '9')

/-- `dnsLabelRegexp.MatchString`, the regular expression
`^[a-zA-Z0-9][a-zA-Z0-9-]{0,62}$`. -/
def dnsLabelRegexpMatch (label : String) : Bool :=
  match label.data with
  | [] => false
  | c :: cs =>
    isAlphaNumChar c && decide (cs.length ≤ 62) &&
      cs.all (fun d => isAlphaNumChar d || d == '-')

/-- `punycodeRegexp.MatchString`, the regular expression `^xn--`. -/
def punycodeRegexpMatch (label : String) : Bool :=
  match label.data with
  | 'x' :: 'n' :: '-' :: '-' :: _ => true
  | _ => false

/-- The per-label checks of `WillingToIssue`, in source order: length in
`[1, 63]`, then the label pattern, then the punycode marker.  All three
produce the same `SyntaxError`, so the loop over labels is modelled by
`List.all labelOk`. -/
def labelOk (label : String) : Bool :=
  if label.length < 1 ∨ label.length > 63 then false
  else if !dnsLabelRegexpMatch label then false
  else if punycodeRegexpMatch label then false
  else true

/-- The closed error taxonomy: `InvalidIdentifierError`, `SyntaxError`,
`NonPublicError`, `BlacklistedError`. -/
inductive PolicyError
  | invalidIdentifier
  | syntaxError
  | nonPublic
  | blacklisted
deriving DecidableEq, Repr

/-- `WillingToIssue`: Go's `error` result is `Option PolicyError`
(`none` = `nil`). -/
def WillingToIssue (pa : PolicyAuthorityImpl) (id : AcmeIdentifier) :
    Option PolicyError :=
  if id.type ≠ IdentifierDNS then some .invalidIdentifier
  else if !id.value.data.all isDNSCharacter then some .syntaxError
  else
    let domain := goToLower id.value
    if domain.length > 255 then some .syntaxError
    else if parseIPSucceeds domain then some .syntaxError
    else
      let labels := splitDomain domain
      if labels.length > maxLabels ∨ labels.length < 2 then some .syntaxError
      else if !labels.all labelOk then some .syntaxError
      else if !suffixMatch labels pa.PublicSuffixList true then some .nonPublic
      else if suffixMatch labels pa.Blacklist false then some .blacklisted
      else none

deriving instance DecidableEq for Except

/-- The descending loop of `PSLPlusOne`: try split points `i, i-1, ..., 0`
and return the labels from the first split point whose suffix is a proper
suffix match. -/
def pslScan (psl : List String) (labels : List String) : Nat → Option String
  | 0 =>
    if suffixMatch (labels.drop 0) psl true then some (joinDots (labels.drop 0))
    else none
  | i + 1 =>
    if suffixMatch (labels.drop (i + 1)) psl true then
      some (joinDots (labels.drop (i + 1)))
    else pslScan psl labels i

/-- `PSLPlusOne`: Go's `(string, error)` result is `Except String String`. -/
def PSLPlusOne (pa : PolicyAuthorityImpl) (domain : String) :
    Except String String :=
  let labels := splitDomain domain
  if labels.length < 2 then .error "String has only one label"
  else if !suffixMatch labels pa.PublicSuffixList true then
    .error "String does not have a public suffix"
  else
    match pslScan pa.PublicSuffixList labels (labels.length - 2) with
    | some s => .ok s
    | none => .error "Reached unreachable point in PSLPlusOne"

/-- Modelled from the spec: the three challenge kinds returned by the
`core` package constructors (an HTTP-based, a TLS-SNI-based and a
DNS-record-based proof of control); the constructors themselves are not
part of the sources. -/
inductive ChallengeKind
  | simpleHTTP
  | dvsni
  | dns
deriving DecidableEq, Repr

/-- Modelled from the spec: a challenge descriptor, reduced to its kind
(the only part the policy engine determines). -/
structure Challenge where
  kind : ChallengeKind
deriving DecidableEq, Repr

/-- Modelled from the spec: `core.SimpleHTTPChallenge()`. -/
def SimpleHTTPChallenge : Challenge := ⟨.simpleHTTP⟩

/-- Modelled from the spec: `core.DvsniChallenge()`. -/
def DvsniChallenge : Challenge := ⟨.dvsni⟩

/-- Modelled from the spec: `core.DNSChallenge()`. -/
def DNSChallenge : Challenge := ⟨.dns⟩

/-- `ChallengesFor`: static challenge policy. -/
def ChallengesFor (_pa : PolicyAuthorityImpl) (_identifier : AcmeIdentifier) :
    List Challenge × List (List Nat) :=
  ([SimpleHTTPChallenge, DvsniChallenge, DNSChallenge], [[0], [1], [2]])

/-- Spec-side description of the `suffixMatch` scan: the index of the
first candidate `join(labels[i:], ".")`, for `i` from 0 upward, that is in
the set. -/
def firstMatchIdxAux (suffixSet : List String) : List String → Nat → Option Nat
  | [], _ => none
  | l :: ls, i =>
    if inSet (joinDots (l :: ls)) suffixSet then some i
    else firstMatchIdxAux suffixSet ls (i + 1)

/-- Spec-side description used to state the behavior of `suffixMatch`. -/
def firstMatchIdx (labels suffixSet : List String) : Option Nat :=
  firstMatchIdxAux suffixSet labels 0

/-- Spec-side label shape: starts with an alphanumeric character followed
by only alphanumerics or hyphens. -/
def headAlnumRestAlnumHyphen (label : String) : Bool :=
  match label.data with
  | [] => false
  | c :: cs => isAlphaNumChar c && cs.all (fun d => isAlphaNumChar d || d == '-')

/-- Spec-side per-label violation: length 0 or greater than 63, wrong
shape, or the `xn--` marker. -/
def labelViolation (label : String) : Bool :=
  decide (label.length = 0) || decide (63 < label.length) ||
  !headAlnumRestAlnumHyphen label || punycodeRegexpMatch label

/-- Spec-side syntax stage, the five rules in claimed order: (1) a byte
outside the DNS character class; (2) after lower-casing, length over 255;
(3) an IPv4 or IPv6 literal; (4) label count outside `[2, 10]`; (5) a bad
label. -/
def syntaxViolation (value : String) : Bool :=
  if value.data.any (fun c => !isDNSCharacter c) then true
  else
    let lowered := goToLower value
    if 255 < lowered.length then true
    else if parseIPSucceeds lowered then true
    else
      let labels := splitDomain lowered
      if labels.length < 2 ∨ 10 < labels.length then true
      else labels.any labelViolation

/-- Spec-side decision function: the four gates in claimed order, each
short-circuiting with its error kind. -/
def willingToIssueSpec (pa : PolicyAuthorityImpl) (id : AcmeIdentifier) :
    Option PolicyError :=
  if id.type ≠ IdentifierDNS then some .invalidIdentifier
  else if syntaxViolation id.value then some .syntaxError
  else if !suffixMatch (splitDomain (goToLower id.value)) pa.PublicSuffixList true
  then some .nonPublic
  else if suffixMatch (splitDomain (goToLower id.value)) pa.Blacklist false then
    some .blacklisted
  else none

/-- Example tables: Public Suffix Set `{"com"}`, empty blacklist. -/
def paCom : PolicyAuthorityImpl := ⟨["com"], []⟩

/-- Example tables: Public Suffix Set `{"com"}`, Blacklist
`{"example.com"}`. -/
def paBlk : PolicyAuthorityImpl := ⟨["com"], ["example.com"]⟩

example : splitDomain "www.example.com" = ["www", "example", "com"] := by decide
example : splitDomain "" = [""] := by decide
example : joinDots ["example", "com"] = "example.com" := by decide
example : parseIPv4Succeeds "1.2.3.4" = true := by decide
example : parseIPv4Succeeds "1.2.3.256" = false := by decide
example : parseIPv4Succeeds "1.2.3.4.5" = false := by decide
example : parseIPSucceeds "010.010.010.010" = true := by decide
example : parseIPSucceeds "example.com" = false := by decide
example :
    WillingToIssue ⟨["com"], ["example.com"]⟩ ⟨"dns", "sub.Example.COM"⟩ =
      some .blacklisted := by decide
example :
    WillingToIssue ⟨["com"], ["example.com"]⟩ ⟨"dns", "notexample.com"⟩ =
      none := by decide
example :
    WillingToIssue ⟨["com"], []⟩ ⟨"dns", "com"⟩ = some .syntaxError := by decide
example :
    WillingToIssue ⟨["com"], []⟩ ⟨"dns", "foo.org"⟩ = some .nonPublic := by
  decide
example : PSLPlusOne ⟨["com"], []⟩ "www.example.com" = .ok "example.com" := by
  decide
example : PSLPlusOne ⟨["com"], []⟩ "com" = .error "String has only one label" := by
  decide
example :
    PSLPlusOne ⟨["com"], []⟩ "WWW.EXAMPLE.COM" =
      .error "String does not have a public suffix" := by decide

/-! ### Character-level lemmas -/

theorem isDNSCharacter_lowerChar (c : Char) :
    isDNSCharacter (lowerChar c) = isDNSCharacter c := by
  unfold lowerChar
  split <;> rfl

theorem lowerChar_lowerChar (c : Char) :
    lowerChar (lowerChar c) = lowerChar c := by
  nth_rewrite 2 [lowerChar.eq_def]
  split <;> rfl

theorem goToLower_goToLower (s : String) :
    goToLower (goToLower s) = goToLower s := by
  obtain ⟨l⟩ := s
  simp [goToLower, List.map_map, Function.comp_def, lowerChar_lowerChar]

theorem all_isDNSCharacter_goToLower (s : String) :
    (goToLower s).data.all isDNSCharacter = s.data.all isDNSCharacter := by
  obtain ⟨l⟩ := s
  simp [goToLower, List.all_map, Function.comp_def, isDNSCharacter_lowerChar]

/-! ### Per-label lemmas -/

theorem labelViolation_eq (label : String) :
    labelViolation label = !labelOk label := by
  obtain ⟨l⟩ := label
  cases l with
  | nil => rfl
  | cons c cs =>
    have hd : (String.mk (c :: cs)).data = c :: cs := rfl
    have hlen : (String.mk (c :: cs)).length = cs.length + 1 := rfl
    simp only [labelViolation, labelOk, dnsLabelRegexpMatch,
      headAlnumRestAlnumHyphen, hd, hlen]
    by_cases h1 : 63 < cs.length + 1
    · have h62 : ¬ cs.length ≤ 62 := by omega
      simp [h1, h62, Nat.lt_irrefl]
    · have h62 : cs.length ≤ 62 := by omega
      have hne : ¬ (cs.length + 1 < 1 ∨ cs.length + 1 > 63) := by omega
      rw [if_neg hne]
      by_cases h2 :
          (isAlphaNumChar c &&
            cs.all (fun d => isAlphaNumChar d || d == '-')) = true
      · by_cases h3 : punycodeRegexpMatch (String.mk (c :: cs)) = true
        · simp [h1, h62, h2, h3]
        · simp [h1, h62, h2, h3]
      · rw [Bool.not_eq_true] at h2
        have hdec : decide (cs.length ≤ 62) = true := by simp [h62]
        simp [h1, hdec, h2]

/-! ### The `suffixMatch` scan -/

theorem suffixMatchAux_eq_firstMatch (suffixSet : List String)
    (properSuffix : Bool) :
    ∀ (ls : List String) (n : Nat),
      suffixMatchAux suffixSet properSuffix ls n =
        (match firstMatchIdxAux suffixSet ls n with
         | none => false
         | some k => !properSuffix || decide (0 < k)) := by
  intro ls
  induction ls with
  | nil => intro n; rfl
  | cons l ls ih =>
    intro n
    simp only [suffixMatchAux, firstMatchIdxAux]
    by_cases h : inSet (joinDots (l :: ls)) suffixSet
    · simp [h]
    · simp [h, ih]

theorem firstMatchIdxAux_eq_some (suffixSet : List String) :
    ∀ (ls : List String) (n k : Nat),
      firstMatchIdxAux suffixSet ls n = some k ↔
        ∃ i, i < ls.length ∧ k = n + i ∧
          inSet (joinDots (ls.drop i)) suffixSet = true ∧
          ∀ j, j < i → inSet (joinDots (ls.drop j)) suffixSet = false := by
  intro ls
  induction ls with
  | nil => intro n k; simp [firstMatchIdxAux]
  | cons l ls ih =>
    intro n k
    simp only [firstMatchIdxAux]
    by_cases h : inSet (joinDots (l :: ls)) suffixSet
    · rw [if_pos h]
      constructor
      · intro h'
        injection h' with h'
        exact ⟨0, by simp, by omega, by simpa using h, by omega⟩
      · rintro ⟨i, hi, hk, hT, hmin⟩
        cases i with
        | zero => simp [hk]
        | succ i =>
          have h0 := hmin 0 (Nat.succ_pos i)
          simp at h0
          simp [h0] at h
    · rw [Bool.not_eq_true] at h
      rw [if_neg (by simp [h])]
      rw [ih (n + 1) k]
      constructor
      · rintro ⟨i, hi, hk, hT, hmin⟩
        refine ⟨i + 1, by simpa using Nat.succ_lt_succ hi, by omega,
          by simpa using hT, ?_⟩
        intro j hj
        cases j with
        | zero => simpa using h
        | succ j => simpa using hmin j (Nat.lt_of_succ_lt_succ hj)
      · rintro ⟨i, hi, hk, hT, hmin⟩
        cases i with
        | zero =>
          have : inSet (joinDots (l :: ls)) suffixSet = true := by simpa using hT
          simp [this] at h
        | succ i =>
          refine ⟨i, Nat.lt_of_succ_lt_succ (by simpa using hi), by omega,
            by simpa using hT, ?_⟩
          intro j hj
          simpa using hmin (j + 1) (Nat.succ_lt_succ hj)

theorem firstMatchIdxAux_eq_none (suffixSet : List String) :
    ∀ (ls : List String) (n : Nat),
      firstMatchIdxAux suffixSet ls n = none ↔
        ∀ i, i < ls.length → inSet (joinDots (ls.drop i)) suffixSet = false := by
  intro ls
  induction ls with
  | nil => intro n; simp [firstMatchIdxAux]
  | cons l ls ih =>
    intro n
    simp only [firstMatchIdxAux]
    by_cases h : inSet (joinDots (l :: ls)) suffixSet
    · rw [if_pos h]
      constructor
      · intro h'; cases h'
      · intro hall
        have := hall 0 (Nat.succ_pos ls.length)
        simp at this
        simp [this] at h
    · rw [Bool.not_eq_true] at h
      rw [if_neg (by simp [h])]
      rw [ih (n + 1)]
      constructor
      · intro hall i hi
        cases i with
        | zero => simpa using h
        | succ i => simpa using hall i (Nat.lt_of_succ_lt_succ hi)
      · intro hall i hi
        simpa using hall (i + 1) (Nat.succ_lt_succ hi)

theorem suffixMatch_any_iff (labels suffixSet : List String) :
    suffixMatch labels suffixSet false = true ↔
      ∃ i, i < labels.length ∧
        inSet (joinDots (labels.drop i)) suffixSet = true := by
  rw [suffixMatch, suffixMatchAux_eq_firstMatch]
  cases hfm : firstMatchIdxAux suffixSet labels 0 with
  | none =>
    simp only []
    rw [firstMatchIdxAux_eq_none] at hfm
    constructor
    · intro h; cases h
    · rintro ⟨i, hi, hT⟩
      rw [hfm i hi] at hT
      cases hT
  | some k =>
    simp only [Bool.not_false, Bool.true_or]
    rw [firstMatchIdxAux_eq_some] at hfm
    obtain ⟨i, hi, _, hT, _⟩ := hfm
    exact iff_of_true (by simp) ⟨i, hi, hT⟩

theorem suffixMatch_proper_whole (labels suffixSet : List String)
    (h : inSet (joinDots labels) suffixSet = true) :
    suffixMatch labels suffixSet true = false := by
  cases labels with
  | nil => rfl
  | cons l ls => simp [suffixMatch, suffixMatchAux, h]

/-! ### Split and join -/

theorem splitDots_ne_nil (l : List Char) : splitDots l ≠ [] := by
  cases l with
  | nil => simp [splitDots]
  | cons c cs =>
    by_cases hc : c = '.'
    · subst hc; simp [splitDots]
    · simp only [splitDots, hc]
      cases splitDots cs <;> simp

theorem joinDots_cons_cons (s t : String) (ts : List String) :
    joinDots (s :: t :: ts) = s ++ "." ++ joinDots (t :: ts) := rfl

theorem mk_append (a b : List Char) :
    String.mk a ++ String.mk b = String.mk (a ++ b) := rfl

theorem joinDots_map_mk_splitDots (l : List Char) :
    joinDots ((splitDots l).map String.mk) = String.mk l := by
  induction l with
  | nil => rfl
  | cons c cs ih =>
    by_cases hc : c = '.'
    · subst hc
      rw [show splitDots ('.' :: cs) = [] :: splitDots cs from rfl]
      cases h : splitDots cs with
      | nil => exact absurd h (splitDots_ne_nil cs)
      | cons a as =>
        rw [h] at ih
        simp only [List.map_cons] at ih ⊢
        rw [joinDots_cons_cons, ih]
        rfl
    · simp only [splitDots, hc]
      cases h : splitDots cs with
      | nil => exact absurd h (splitDots_ne_nil cs)
      | cons a as =>
        rw [h] at ih
        simp only [List.map_cons] at ih ⊢
        cases as with
        | nil =>
          simp only [List.map_nil, joinDots] at ih ⊢
          rw [String.ext_iff] at ih ⊢
          dsimp only at ih ⊢
          simp [ih]
        | cons b bs =>
          simp only [List.map_cons] at ih ⊢
          rw [joinDots_cons_cons] at ih ⊢
          generalize joinDots (String.mk b :: bs.map String.mk) = J at ih ⊢
          obtain ⟨j⟩ := J
          rw [show ("." : String) = String.mk ['.'] from rfl, mk_append,
            mk_append] at ih ⊢
          rw [String.ext_iff] at ih ⊢
          dsimp only at ih ⊢
          simp only [List.cons_append, List.append_assoc,
            List.nil_append] at ih ⊢
          simp [ih]

theorem joinDots_splitDomain (s : String) :
    joinDots (splitDomain s) = s := by
  obtain ⟨l⟩ := s
  exact joinDots_map_mk_splitDots l

/-! ### Decomposition of `WillingToIssue` into the claimed gates -/

theorem willingToIssue_eq_spec (pa : PolicyAuthorityImpl)
    (id : AcmeIdentifier) :
    WillingToIssue pa id = willingToIssueSpec pa id := by
  have hany : ∀ l : List Char,
      (l.any fun c => !isDNSCharacter c) = !l.all isDNSCharacter := by
    intro l
    induction l with
    | nil => rfl
    | cons c cs ihl => by_cases hcc : isDNSCharacter c <;> simp [hcc, ihl]
  have hlab : ∀ ls : List String,
      ls.any labelViolation = !ls.all labelOk := by
    intro ls
    induction ls with
    | nil => rfl
    | cons x xs ihl => simp [labelViolation_eq, ihl, Bool.not_and]
  unfold WillingToIssue willingToIssueSpec syntaxViolation
  simp only [hany, hlab, maxLabels]
  by_cases h1 : id.type = IdentifierDNS
  · by_cases h2 : id.value.data.all isDNSCharacter
    · by_cases h3 : 255 < (goToLower id.value).length
      · simp [h1, h2, h3]
      · by_cases h4 : parseIPSucceeds (goToLower id.value)
        · simp [h1, h2, h3, h4]
        · by_cases h5 : (splitDomain (goToLower id.value)).length < 2
          · simp [h1, h2, h3, h4, h5]
          · by_cases h6 : 10 < (splitDomain (goToLower id.value)).length
            · simp [h1, h2, h3, h4, h5, h6]
            · by_cases h7 : (splitDomain (goToLower id.value)).all labelOk
              · simp [h1, h2, h3, h4, h5, h6, h7]
              · simp [h1, h2, h3, h4, h5, h6, h7]
    · simp [h1, h2]
  · simp [h1]

/-! ### The descending scan of `PSLPlusOne` -/

theorem pslScan_eq_some_of_first (psl labels : List String) :
    ∀ n i, i ≤ n →
      suffixMatch (labels.drop i) psl true = true →
      (∀ j, i < j → j ≤ n → suffixMatch (labels.drop j) psl true = false) →
      pslScan psl labels n = some (joinDots (labels.drop i)) := by
  intro n
  induction n with
  | zero =>
    intro i hi hM _
    have h0 : i = 0 := by omega
    subst h0
    simp only [List.drop_zero] at hM
    simp [pslScan, hM]
  | succ n ih =>
    intro i hi hM hmin
    by_cases hn : suffixMatch (labels.drop (n + 1)) psl true
    · have hieq : i = n + 1 := by
        by_contra hne
        have h2 := hmin (n + 1) (by omega) (Nat.le_refl _)
        rw [h2] at hn
        cases hn
      subst hieq
      simp [pslScan, hn]
    · rw [Bool.not_eq_true] at hn
      have hne : i ≠ n + 1 := by
        intro he
        rw [he, hn] at hM
        cases hM
      simp only [pslScan]
      rw [if_neg (by simp [hn])]
      exact ih i (by omega) hM (fun j hj hjn => hmin j hj (by omega))

theorem pslScan_isSome (psl labels : List String)
    (h0 : suffixMatch labels psl true = true) :
    ∀ n, ∃ s, pslScan psl labels n = some s := by
  intro n
  induction n with
  | zero => exact ⟨joinDots labels, by simp [pslScan, h0]⟩
  | succ n ih =>
    by_cases hn : suffixMatch (labels.drop (n + 1)) psl true
    · exact ⟨joinDots (labels.drop (n + 1)), by simp [pslScan, hn]⟩
    · obtain ⟨s, hs⟩ := ih
      rw [Bool.not_eq_true] at hn
      refine ⟨s, ?_⟩
      simp only [pslScan]
      rw [if_neg (by simp [hn])]
      exact hs

/-! ### Lower-casing -/

theorem willingToIssue_goToLower (pa : PolicyAuthorityImpl)
    (id : AcmeIdentifier) :
    WillingToIssue pa id = WillingToIssue pa ⟨id.type, goToLower id.value⟩ := by
  unfold WillingToIssue
  by_cases h1 : id.type = IdentifierDNS
  · by_cases h2 : id.value.data.all isDNSCharacter
    · have hg : (goToLower id.value).data.all isDNSCharacter = true := by
        rw [all_isDNSCharacter_goToLower]
        exact h2
      simp only [h1, h2, hg, goToLower_goToLower, Bool.not_true,
        Bool.false_eq_true, if_false]
    · have hg : (goToLower id.value).data.all isDNSCharacter = false := by
        rw [all_isDNSCharacter_goToLower]
        exact (Bool.not_eq_true _).mp h2
      simp [h1, h2, hg]
  · simp [h1]

/-! ### Claims -/

/-- C1: for every identifier, `WillingToIssue` applies its gates in the
exact short-circuiting order type / syntax / proper public-suffix match /
any blacklist match, returning `InvalidIdentifierError`, `SyntaxError`,
`NonPublicError`, `BlacklistedError` at the first failing gate and `nil`
when all pass: it coincides with the gate composition
`willingToIssueSpec`. -/
theorem C1_gate_order (pa : PolicyAuthorityImpl) (id : AcmeIdentifier) :
    WillingToIssue pa id = willingToIssueSpec pa id :=
  willingToIssue_eq_spec pa id

/-- C2: `suffixMatch` scans candidates `join(labels[i:], ".")` for `i`
from 0 upward and decides at the first `i` whose candidate is in the set
(`firstMatchIdx`): it returns `!properSuffix || 0 < i` there and `false`
when no candidate is in the set; `firstMatchIdx` is indeed the first
matching index. -/
theorem C2_suffixMatch_scan (labels suffixSet : List String)
    (properSuffix : Bool) :
    (suffixMatch labels suffixSet properSuffix =
      match firstMatchIdx labels suffixSet with
      | none => false
      | some i => !properSuffix || decide (0 < i)) ∧
    (∀ i, firstMatchIdx labels suffixSet = some i ↔
      i < labels.length ∧ inSet (joinDots (labels.drop i)) suffixSet = true ∧
      ∀ j, j < i → inSet (joinDots (labels.drop j)) suffixSet = false) ∧
    (firstMatchIdx labels suffixSet = none ↔
      ∀ i, i < labels.length →
        inSet (joinDots (labels.drop i)) suffixSet = false) := by
  refine ⟨suffixMatchAux_eq_firstMatch suffixSet properSuffix labels 0, ?_,
    firstMatchIdxAux_eq_none suffixSet labels 0⟩
  intro i
  rw [firstMatchIdx, firstMatchIdxAux_eq_some]
  constructor
  · rintro ⟨j, hj, hk, hT, hmin⟩
    obtain rfl : i = j := by omega
    exact ⟨hj, hT, hmin⟩
  · rintro ⟨hi, hT, hmin⟩
    exact ⟨i, hi, by omega, hT, hmin⟩

/-- Witness for C2 at `labels = ["www", "example", "com"]`,
`suffixSet = ["com"]`: the first matching index is 2. -/
theorem C2_witness :
    firstMatchIdx ["www", "example", "com"] ["com"] = some 2 := by
  have hall : ∀ j, j < 2 →
      inSet (joinDots ((["www", "example", "com"] : List String).drop j))
        ["com"] = false := by
    intro j hj
    interval_cases j <;> decide
  exact ((C2_suffixMatch_scan ["www", "example", "com"] ["com"] true).2.1
    2).mpr ⟨by decide, by decide, hall⟩

/-- C3: once the type, syntax and public-suffix gates pass,
`WillingToIssue` returns `BlacklistedError` iff some label-wise suffix of
the domain (the whole domain included) is in the Blacklist Set; with
Blacklist `{"example.com"}`, `"example.com"` and `"sub.example.com"` are
blacklisted while `"notexample.com"` is accepted. -/
theorem C3_blacklist :
    (∀ (pa : PolicyAuthorityImpl) (id : AcmeIdentifier),
      id.type = IdentifierDNS →
      syntaxViolation id.value = false →
      suffixMatch (splitDomain (goToLower id.value)) pa.PublicSuffixList true
        = true →
      (WillingToIssue pa id = some .blacklisted ↔
        ∃ i, i < (splitDomain (goToLower id.value)).length ∧
          inSet (joinDots ((splitDomain (goToLower id.value)).drop i))
            pa.Blacklist = true)) ∧
    WillingToIssue paBlk ⟨"dns", "example.com"⟩ = some .blacklisted ∧
    WillingToIssue paBlk ⟨"dns", "sub.example.com"⟩ = some .blacklisted ∧
    WillingToIssue paBlk ⟨"dns", "notexample.com"⟩ = none := by
  refine ⟨?_, by decide, by decide, by decide⟩
  intro pa id h1 h2 h3
  rw [willingToIssue_eq_spec]
  unfold willingToIssueSpec
  rw [← suffixMatch_any_iff]
  by_cases hb : suffixMatch (splitDomain (goToLower id.value)) pa.Blacklist
      false
  · simp [h1, h2, h3, hb]
  · simp [h1, h2, h3, hb]

/-- Witness for C3 at `paBlk` and `"sub.example.com"`: the matching
blacklist suffix exists. -/
theorem C3_witness :
    ∃ i, i < (splitDomain (goToLower "sub.example.com")).length ∧
      inSet (joinDots ((splitDomain (goToLower "sub.example.com")).drop i))
        paBlk.Blacklist = true :=
  (C3_blacklist.1 paBlk ⟨"dns", "sub.example.com"⟩ (by decide) (by decide)
    (by decide)).mp (by decide)

/-- C4: for DNS-typed identifiers, `WillingToIssue` yields `SyntaxError`
iff one of the five ordered syntax rules fires (`syntaxViolation`); a
63-character label passes the syntax stage, a 64-character label is
rejected. -/
theorem C4_syntax_stage (pa : PolicyAuthorityImpl) (value : String) :
    (WillingToIssue pa ⟨IdentifierDNS, value⟩ = some .syntaxError ↔
      syntaxViolation value = true) ∧
    WillingToIssue paCom
      ⟨IdentifierDNS, String.mk (List.replicate 63 'a') ++ ".com"⟩ = none ∧
    WillingToIssue paCom
      ⟨IdentifierDNS, String.mk (List.replicate 64 'a') ++ ".com"⟩ =
      some .syntaxError := by
  refine ⟨?_, by decide, by decide⟩
  rw [willingToIssue_eq_spec]
  unfold willingToIssueSpec
  by_cases hs : syntaxViolation value
  · simp [hs]
  · rw [Bool.not_eq_true] at hs
    simp only [hs]
    split_ifs <;> simp_all

/-- Witness for C4 at `paCom` and the single-label value `"x"`. -/
theorem C4_witness :
    WillingToIssue paCom ⟨IdentifierDNS, "x"⟩ = some .syntaxError :=
  (C4_syntax_stage paCom "x").1.mpr (by decide)

/-- C5 counterexample: the claim "PSLPlusOne(domain) equals PSLPlusOne of
the lower-cased domain" is false at `"WWW.EXAMPLE.COM"` with suffix table
`{"com"}` — `PSLPlusOne` performs no lower-casing of its input. -/
theorem C5_counterexample :
    decide (PSLPlusOne paCom "WWW.EXAMPLE.COM" =
      PSLPlusOne paCom (goToLower "WWW.EXAMPLE.COM")) = false := by decide

/-- C5 (amended): `WillingToIssue` normalizes its input to lower case
before matching (for ASCII values, where the modelled `goToLower` is
exactly Go's `strings.ToLower`): lower-casing the value does not change
its result.  `PSLPlusOne`, by contrast, performs no normalization:
at `"WWW.EXAMPLE.COM"` it fails while the lower-cased domain succeeds. -/
theorem C5_lowercase_amended :
    (∀ (pa : PolicyAuthorityImpl) (id : AcmeIdentifier),
      id.value.data.all (fun c => c.toNat ≤ 127) = true →
      WillingToIssue pa id = WillingToIssue pa ⟨id.type, goToLower id.value⟩) ∧
    PSLPlusOne paCom "WWW.EXAMPLE.COM" =
      .error "String does not have a public suffix" ∧
    PSLPlusOne paCom (goToLower "WWW.EXAMPLE.COM") = .ok "example.com" :=
  ⟨fun pa id _ => willingToIssue_goToLower pa id, by decide, by decide⟩

/-- Witness for C5 (amended) at `paCom` and the ASCII value
`"MiXeD.CoM"`. -/
theorem C5_witness :
    WillingToIssue paCom ⟨"dns", "MiXeD.CoM"⟩ =
      WillingToIssue paCom ⟨"dns", goToLower "MiXeD.CoM"⟩ :=
  C5_lowercase_amended.1 paCom ⟨"dns", "MiXeD.CoM"⟩ (by decide)

/-- C6: `PSLPlusOne` fails on fewer than 2 labels, fails when the full
label list is not a proper public-suffix match, and otherwise returns
`join(labels[i:], ".")` for the largest `i ≤ len-2` whose suffix is a
proper match (the descending scan returns at its first hit);
`PSLPlusOne("www.example.com")` with table `{"com"}` is `"example.com"`
and `PSLPlusOne("com")` errors. -/
theorem C6_pslPlusOne (pa : PolicyAuthorityImpl) (domain : String) :
    ((splitDomain domain).length < 2 →
      PSLPlusOne pa domain = .error "String has only one label") ∧
    (2 ≤ (splitDomain domain).length →
      suffixMatch (splitDomain domain) pa.PublicSuffixList true = false →
      PSLPlusOne pa domain = .error "String does not have a public suffix") ∧
    (∀ i, 2 ≤ (splitDomain domain).length →
      suffixMatch (splitDomain domain) pa.PublicSuffixList true = true →
      i ≤ (splitDomain domain).length - 2 →
      suffixMatch ((splitDomain domain).drop i) pa.PublicSuffixList true
        = true →
      (∀ j, i < j → j ≤ (splitDomain domain).length - 2 →
        suffixMatch ((splitDomain domain).drop j) pa.PublicSuffixList true
          = false) →
      PSLPlusOne pa domain = .ok (joinDots ((splitDomain domain).drop i))) ∧
    PSLPlusOne paCom "www.example.com" = .ok "example.com" ∧
    PSLPlusOne paCom "com" = .error "String has only one label" := by
  refine ⟨?_, ?_, ?_, by decide, by decide⟩
  · intro h
    simp [PSLPlusOne, h]
  · intro h2 hm
    unfold PSLPlusOne
    rw [if_neg (by omega)]
    simp [hm]
  · intro i h2 hfull hile hMi hmin
    have hscan := pslScan_eq_some_of_first pa.PublicSuffixList
      (splitDomain domain) ((splitDomain domain).length - 2) i hile hMi hmin
    unfold PSLPlusOne
    rw [if_neg (by omega)]
    simp [hfull, hscan]

/-- Witness for C6 at `paCom` and `"www.example.com"`, split point 1. -/
theorem C6_witness :
    PSLPlusOne paCom "www.example.com" =
      .ok (joinDots ((splitDomain "www.example.com").drop 1)) :=
  (C6_pslPlusOne paCom "www.example.com").2.2.1 1 (by decide) (by decide)
    (by decide) (by decide)
    (by
      intro j hj hjle
      rw [show (splitDomain "www.example.com").length - 2 = 1 from by decide]
        at hjle
      omega)

/-- C7: the final "Reached unreachable point" branch of `PSLPlusOne` is
indeed unreachable: whenever the label list has at least 2 labels and is a
proper suffix match against the Public Suffix Set, the descending scan
finds a split point (at `i = 0` at the latest) and `PSLPlusOne` returns
a success. -/
theorem C7_unreachable_branch (pa : PolicyAuthorityImpl) (domain : String)
    (h2 : 2 ≤ (splitDomain domain).length)
    (hfull : suffixMatch (splitDomain domain) pa.PublicSuffixList true
      = true) :
    ∃ s, PSLPlusOne pa domain = .ok s := by
  obtain ⟨s, hs⟩ := pslScan_isSome pa.PublicSuffixList (splitDomain domain)
    hfull ((splitDomain domain).length - 2)
  refine ⟨s, ?_⟩
  unfold PSLPlusOne
  rw [if_neg (by omega)]
  simp [hfull, hs]

/-- Witness for C7 at `paCom` and `"www.example.com"`. -/
theorem C7_witness :
    ∃ s, PSLPlusOne paCom "www.example.com" = .ok s :=
  C7_unreachable_branch paCom "www.example.com" (by decide) (by decide)

/-- C8: `WillingToIssue` is total and deterministic: every input yields
`nil` or one of the four error kinds (the modelled function is a total
computable function, so termination holds by construction), equal inputs
yield equal outputs, and the empty string, a dotless string and a
non-ASCII string are rejected with `SyntaxError` rather than a fault. -/
theorem C8_total_deterministic :
    (∀ (pa : PolicyAuthorityImpl) (id : AcmeIdentifier),
      WillingToIssue pa id = none ∨
      WillingToIssue pa id = some .invalidIdentifier ∨
      WillingToIssue pa id = some .syntaxError ∨
      WillingToIssue pa id = some .nonPublic ∨
      WillingToIssue pa id = some .blacklisted) ∧
    (∀ (pa pa2 : PolicyAuthorityImpl) (id id2 : AcmeIdentifier),
      pa = pa2 → id = id2 →
      WillingToIssue pa id = WillingToIssue pa2 id2) ∧
    WillingToIssue paCom ⟨"dns", ""⟩ = some .syntaxError ∧
    WillingToIssue paCom ⟨"dns", "nodots"⟩ = some .syntaxError ∧
    WillingToIssue paCom ⟨"dns", "héllo.com"⟩ = some .syntaxError := by
  refine ⟨?_, ?_, by decide, by decide, by decide⟩
  · intro pa id
    cases h : WillingToIssue pa id with
    | none => exact Or.inl rfl
    | some e => cases e <;> simp
  · intro pa pa2 id id2 h1 h2
    rw [h1, h2]

/-- Witness for C8: determinism applied at `paCom` and `"foo.com"`. -/
theorem C8_witness :
    WillingToIssue paCom ⟨"dns", "foo.com"⟩ =
      WillingToIssue paCom ⟨"dns", "foo.com"⟩ :=
  C8_total_deterministic.2.1 paCom paCom ⟨"dns", "foo.com"⟩
    ⟨"dns", "foo.com"⟩ rfl rfl

/-- C9: `ChallengesFor` returns exactly the three challenge descriptors
(HTTP-based, TLS-SNI-based, DNS-based, in that order) and the three
singleton combinations `[0]`, `[1]`, `[2]`, independently of the
identifier. -/
theorem C9_challenges (pa pa2 : PolicyAuthorityImpl)
    (id id2 : AcmeIdentifier) :
    ChallengesFor pa id =
      ([SimpleHTTPChallenge, DvsniChallenge, DNSChallenge],
        [[0], [1], [2]]) ∧
    (ChallengesFor pa id).1.length = 3 ∧
    (ChallengesFor pa id).2.length = 3 ∧
    ChallengesFor pa id = ChallengesFor pa2 id2 :=
  ⟨rfl, rfl, rfl, rfl⟩

/-- C10: `suffixMatch` commits to the longest candidate, so a label list
whose full join is a set entry never passes a proper-suffix requirement,
whatever else the set contains; consequently a DNS identifier that passes
the syntax stage but whose lower-cased value is itself a Public Suffix Set
entry draws `NonPublicError`. -/
theorem C10_whole_domain_psl_entry :
    (∀ labels suffixSet : List String,
      inSet (joinDots labels) suffixSet = true →
      suffixMatch labels suffixSet true = false) ∧
    (∀ (pa : PolicyAuthorityImpl) (id : AcmeIdentifier),
      id.type = IdentifierDNS →
      syntaxViolation id.value = false →
      inSet (goToLower id.value) pa.PublicSuffixList = true →
      WillingToIssue pa id = some .nonPublic) := by
  refine ⟨fun labels suffixSet h => suffixMatch_proper_whole labels suffixSet h,
    ?_⟩
  intro pa id h1 h2 h3
  have hw : inSet (joinDots (splitDomain (goToLower id.value)))
      pa.PublicSuffixList = true := by
    rw [joinDots_splitDomain]
    exact h3
  have hfalse := suffixMatch_proper_whole _ _ hw
  rw [willingToIssue_eq_spec]
  unfold willingToIssueSpec
  simp [h1, h2, hfalse]

/-- Witness for C10 at PSL `{"foo.com", "com"}` and value `"Foo.COM"`
(the set also contains the shorter proper suffix `"com"`). -/
theorem C10_witness :
    WillingToIssue ⟨["foo.com", "com"], []⟩ ⟨"dns", "Foo.COM"⟩ =
      some .nonPublic :=
  C10_whole_domain_psl_entry.2 ⟨["foo.com", "com"], []⟩ ⟨"dns", "Foo.COM"⟩
    (by decide) (by decide) (by decide)
